import Mathlib

/-!
Shallow embedding of the report aggregation core of the personal-finance-api
repository (Go).  Sources embedded:

* `internal/models/transaction.go` — the `Transaction` record and the
  `TransactionTypeIncome` / `TransactionTypeExpense` constants.
* `internal/services/report_service.go` — `GetMonthlyReport`,
  `buildMonthlyReport`, `getAllCurrencies`.
* `internal/repositories` memory repository — `GetByDateRange`.

Modelling conventions:
* Go `float64` amounts are modelled as exact rationals `ℚ` (the claims speak
  of exact sums; the summation order of the code is preserved).
* Go `time.Time` values (always UTC here) are modelled as `Int` nanoseconds
  since the Unix epoch; `time.Second` is `nsPerSecond`.
* Go `map[string]V` values are modelled as association lists with
  replace-first insertion (`setKey`) and first-match lookup (`lookup?`);
  reading a missing key yields the zero value, as in Go (`mget`).
* Logging calls have no semantic effect and are dropped.
-/

/-- Go `models.Transaction` (transaction.go lines 5-15).  `CreatedAt` and
`UpdatedAt` belong to the store and are never read by the report core, so
they are omitted.  `date` is the attributed date (`Date`), in nanoseconds. -/
structure Transaction where
  id : Int
  type : String
  amount : ℚ
  currency : String
  description : String
  category : String
  date : Int
deriving DecidableEq, Repr

/-- Go constant `models.TransactionTypeIncome = "income"`. -/
def TransactionTypeIncome : String := "income"

/-- Go constant `models.TransactionTypeExpense = "expense"`. -/
def TransactionTypeExpense : String := "expense"

/-- First-match lookup in an association list; `none` models a key that is
absent from the Go map. -/
def lookup? {α : Type} : List (String × α) → String → Option α
  | [], _ => none
  | p :: ps, k => if p.1 = k then some p.2 else lookup? ps k

/-- Go map assignment `m[k] = v`: replace the (first) binding of `k`, or
append a new binding when `k` is absent. -/
def setKey {α : Type} : List (String × α) → String → α → List (String × α)
  | [], k, v => [(k, v)]
  | p :: ps, k, v => if p.1 = k then (k, v) :: ps else p :: setKey ps k v

/-- Go map read `m[k]` for a `map[string]float64`: the zero value `0` when
the key is absent. -/
def mget (m : List (String × ℚ)) (k : String) : ℚ :=
  (lookup? m k).getD 0

/-- Currency-keyed totals, Go `map[string]float64`. -/
abbrev CurrencyMap := List (String × ℚ)

/-- Go `models.CategoryTotal` (count plus per-currency totals). -/
structure CategoryTotal where
  count : Nat
  totals : CurrencyMap
deriving DecidableEq, Repr

/-- Category-keyed breakdown, Go `map[string]models.CategoryTotal`. -/
abbrev CategoryMap := List (String × CategoryTotal)

/-- Go `models.ReportSummary`. -/
structure ReportSummary where
  transactionCount : Nat
  incomeCount : Nat
  expenseCount : Nat
  categoryBreakdown : CategoryMap
deriving DecidableEq, Repr

/-- Go `models.MonthlyReport`. -/
structure MonthlyReport where
  month : String
  year : Int
  totalIncome : CurrencyMap
  totalExpense : CurrencyMap
  balance : CurrencyMap
  transactions : List Transaction
  summary : ReportSummary
deriving DecidableEq, Repr

/-- Accumulator of the single pass of `buildMonthlyReport`
(report_service.go lines 116-121). -/
structure BuildState where
  totalIncome : CurrencyMap
  totalExpense : CurrencyMap
  categoryBreakdown : CategoryMap
  incomeCount : Nat
  expenseCount : Nat
deriving Repr

/-- Totals update of the existing-category branch (report_service.go lines
144-147): `if category.Totals[cur] == 0 { category.Totals[cur] = 0 }` —
reading a missing key as `0` and materialising it — followed by
`category.Totals[cur] += amount`. -/
def totalsAdd (tot : CurrencyMap) (cur : String) (amt : ℚ) : CurrencyMap :=
  let totals0 := if mget tot cur = 0 then setKey tot cur 0 else tot
  setKey totals0 cur (mget totals0 cur + amt)

/-- Category-breakdown part of the loop body of `buildMonthlyReport`
(report_service.go lines 141-155).  When the category exists, Go increments
`Count` and adds the amount into its totals; otherwise it creates
`{Count: 1, Totals: {currency: amount}}`. -/
def categoryUpdate (cb : CategoryMap) (t : Transaction) : CategoryMap :=
  match lookup? cb t.category with
  | some category =>
      let updated : CategoryTotal :=
        { count := category.count + 1
          totals := totalsAdd category.totals t.currency t.amount }
      setKey cb t.category updated
  | none =>
      let fresh : CategoryTotal := { count := 1, totals := [(t.currency, t.amount)] }
      setKey cb t.category fresh

/-- Loop body of `buildMonthlyReport` (report_service.go lines 123-155):
currency totals plus the category breakdown update. -/
def processTransaction (st : BuildState) (t : Transaction) : BuildState :=
  let st1 :=
    if t.type = TransactionTypeIncome then
      { st with
          totalIncome := setKey st.totalIncome t.currency
            (mget st.totalIncome t.currency + t.amount)
          incomeCount := st.incomeCount + 1 }
    else
      { st with
          totalExpense := setKey st.totalExpense t.currency
            (mget st.totalExpense t.currency + t.amount)
          expenseCount := st.expenseCount + 1 }
  { st1 with categoryBreakdown := categoryUpdate st1.categoryBreakdown t }

/-- Go `getAllCurrencies` (report_service.go lines 201-223): a
`map[string]bool` holding every currency key of either totals map. -/
def getAllCurrencies (totalIncome totalExpense : CurrencyMap) : List (String × Bool) :=
  (totalExpense.map Prod.fst).foldl (fun acc c => setKey acc c true)
    ((totalIncome.map Prod.fst).foldl (fun acc c => setKey acc c true) [])

/-- Go `time.Month(m).String()` (month names; out-of-range months render as
`%!Month(m)`, as in Go's `String` method). -/
def monthName (m : Int) : String :=
  if m = 1 then "January" else if m = 2 then "February"
  else if m = 3 then "March" else if m = 4 then "April"
  else if m = 5 then "May" else if m = 6 then "June"
  else if m = 7 then "July" else if m = 8 then "August"
  else if m = 9 then "September" else if m = 10 then "October"
  else if m = 11 then "November" else if m = 12 then "December"
  else "%!Month(" ++ toString m ++ ")"

/-- The empty maps and zero counters of report_service.go lines 116-121. -/
def initialBuildState : BuildState :=
  { totalIncome := [], totalExpense := [], categoryBreakdown := [],
    incomeCount := 0, expenseCount := 0 }

/-- Balance loop of `buildMonthlyReport` (report_service.go lines 157-173):
`balance[currency] = totalIncome[currency] - totalExpense[currency]` for
every currency of `getAllCurrencies`. -/
def balanceOf (totalIncome totalExpense : CurrencyMap) : CurrencyMap :=
  (getAllCurrencies totalIncome totalExpense).foldl
    (fun b p => setKey b p.1 (mget totalIncome p.1 - mget totalExpense p.1)) []

/-- Go `buildMonthlyReport` (report_service.go lines 109-199): single pass
over the transactions, then the balance map over the currency union. -/
def buildMonthlyReport (year month : Int) (transactions : List Transaction) :
    MonthlyReport :=
  let st := transactions.foldl processTransaction initialBuildState
  let balance := balanceOf st.totalIncome st.totalExpense
  { month := monthName month
    year := year
    totalIncome := st.totalIncome
    totalExpense := st.totalExpense
    balance := balance
    transactions := transactions
    summary :=
      { transactionCount := transactions.length
        incomeCount := st.incomeCount
        expenseCount := st.expenseCount
        categoryBreakdown := st.categoryBreakdown } }

/-- Go `time.Second` expressed in the nanosecond time scale. -/
def nsPerSecond : Int := 1000000000

/-- Days of the proleptic Gregorian calendar between the civil date
`(y, m, d)` (with `m ∈ [1,12]`) and 1970-01-01, negative for earlier dates.
This is the arithmetic underlying Go's `time.Date` for UTC instants. -/
def daysFromCivil (y m d : Int) : Int :=
  let y1 := y - (if m ≤ 2 then 1 else 0)
  let era := Int.ediv y1 400
  let yoe := y1 - era * 400
  let mp := Int.emod (m + 9) 12
  let doy := Int.ediv (153 * mp + 2) 5 + d - 1
  let doe := yoe * 365 + Int.ediv yoe 4 - Int.ediv yoe 100 + doy
  era * 146097 + doe - 719468

/-- Go `time.Date(year, month, day, hour, min, sec, 0, time.UTC)` as
nanoseconds since the Unix epoch.  The month is normalized exactly as Go's
`norm` does (month 13 of year `y` is January of `y+1`); the remaining
arguments are used only in-range by the embedded code, so no further
normalization is needed. -/
def goTimeDateUTC (year month day hour minute sec : Int) : Int :=
  let y := year + Int.ediv (month - 1) 12
  let m := Int.emod (month - 1) 12 + 1
  (daysFromCivil y m day * 86400 + hour * 3600 + minute * 60 + sec) * nsPerSecond

/-- The date range computed by `GetMonthlyReport` (report_service.go lines
47-49): `startDate = time.Date(year, month, 1, 0, 0, 0, 0, UTC)` and
`endDate = startDate.AddDate(0, 1, 0).Add(-time.Second)`.  Go's
`AddDate(0, 1, 0)` re-invokes `time.Date` with `month+1`. -/
def computeMonthRange (year month : Int) : Int × Int :=
  let startDate := goTimeDateUTC year month 1 0 0 0
  (startDate, goTimeDateUTC year (month + 1) 1 0 0 0 - nsPerSecond)

/-- The memory repository's `GetByDateRange`: keeps a transaction when
`transaction.Date.After(startDate.Add(-time.Second)) &&
transaction.Date.Before(endDate.Add(time.Second))` (strict comparisons at
nanosecond precision, as in Go). -/
def GetByDateRange (stored : List Transaction) (startDate endDate : Int) :
    List Transaction :=
  stored.filter fun t =>
    decide (startDate - nsPerSecond < t.date) && decide (t.date < endDate + nsPerSecond)

/-- Domain errors of the report service (report_service.go lines 31-45):
`invalidYear` is Go's `errors.New("invalid year")`, `invalidMonth` is
`errors.New("month must be between 1 and 12")`. -/
inductive ReportError where
  | invalidYear
  | invalidMonth
deriving DecidableEq, Repr

/-- Go `GetMonthlyReport` (report_service.go lines 25-97).  `currentYear`
stands for `time.Now().Year()` and `query` for the transaction store's
`GetByDateRange`; validation happens before `query` is consulted. -/
def GetMonthlyReport (currentYear : Int) (query : Int → Int → List Transaction)
    (year month : Int) : Except ReportError MonthlyReport :=
  if year < 1900 ∨ year > currentYear + 10 then
    .error .invalidYear
  else if month < 1 ∨ month > 12 then
    .error .invalidMonth
  else
    let range := computeMonthRange year month
    .ok (buildMonthlyReport year month (query range.1 range.2))

/-! ### Specification-side sums and counts -/

/-- Sum of `amount` over the transactions satisfying `p`, in input order. -/
def sumBy (p : Transaction → Bool) (ts : List Transaction) : ℚ :=
  ((ts.filter p).map Transaction.amount).sum

/-- Number of transactions satisfying `p`. -/
def countBy (p : Transaction → Bool) (ts : List Transaction) : Nat :=
  (ts.filter p).length

/-- An income transaction with currency `c`. -/
def isIncomeIn (c : String) (t : Transaction) : Bool :=
  decide (t.type = TransactionTypeIncome ∧ t.currency = c)

/-- A non-income transaction (Go's `else` branch) with currency `c`. -/
def isExpenseIn (c : String) (t : Transaction) : Bool :=
  decide (t.type ≠ TransactionTypeIncome ∧ t.currency = c)

/-- `categoryBreakdown[k].Count`, reading `0` when `k` is absent. -/
def catCount (cb : CategoryMap) (k : String) : Nat :=
  ((lookup? cb k).map CategoryTotal.count).getD 0

/-- `categoryBreakdown[k].Totals[c]`, reading `0` when either key is absent. -/
def catTotal (cb : CategoryMap) (k c : String) : ℚ :=
  mget (((lookup? cb k).map CategoryTotal.totals).getD []) c

/-- Sum over every category entry of its totals for currency `c`. -/
def catSum (cb : CategoryMap) (c : String) : ℚ :=
  (cb.map fun p => mget p.2.totals c).sum

/-- Concrete transactions used to instantiate claim hypotheses (spec §8,
scenario 1). -/
def sampleTransactions : List Transaction :=
  [{ id := 1, type := "income", amount := 100000, currency := "ARS",
     description := "", category := "salary", date := 0 },
   { id := 2, type := "expense", amount := 25000, currency := "ARS",
     description := "", category := "food", date := 0 },
   { id := 3, type := "expense", amount := 200, currency := "USD",
     description := "", category := "fun", date := 0 }]

/-! ### Association-list lemmas -/

theorem lookup_setKey {α : Type} (m : List (String × α)) (k : String) (v : α)
    (c : String) :
    lookup? (setKey m k v) c = if c = k then some v else lookup? m c := by
  induction m with
  | nil =>
      by_cases h : c = k
      · subst h; simp [setKey, lookup?]
      · simp [setKey, lookup?, h, Ne.symm h]
  | cons p ps ih =>
      by_cases hc : c = k
      · subst hc
        by_cases hp : p.1 = c <;> simp [setKey, lookup?, hp, ih]
      · by_cases hp : p.1 = k <;>
          simp [setKey, lookup?, hp, hc, Ne.symm hc, ih]

theorem mget_setKey (m : CurrencyMap) (k : String) (v : ℚ) (c : String) :
    mget (setKey m k v) c = if c = k then v else mget m c := by
  by_cases h : c = k <;> simp [mget, lookup_setKey, h]

theorem lookup_isSome_setKey {α : Type} (m : List (String × α)) (k : String)
    (v : α) (c : String) :
    (lookup? (setKey m k v) c).isSome = (c = k ∨ (lookup? m c).isSome) := by
  by_cases h : c = k <;> simp [lookup_setKey, h]

theorem mget_eq_zero_of_lookup_none (m : CurrencyMap) (c : String)
    (h : lookup? m c = none) : mget m c = 0 := by
  simp [mget, h]

theorem lookup_isSome_iff_mem_keys {α : Type} (m : List (String × α))
    (c : String) :
    (lookup? m c).isSome ↔ c ∈ m.map Prod.fst := by
  induction m with
  | nil => simp [lookup?]
  | cons p ps ih =>
      by_cases hp : p.1 = c
      · simp [lookup?, hp]
      · simp [lookup?, hp, Ne.symm hp, ih]

theorem setKey_of_lookup_none {α : Type} (m : List (String × α)) (k : String)
    (v : α) (h : lookup? m k = none) : setKey m k v = m ++ [(k, v)] := by
  induction m with
  | nil => simp [setKey]
  | cons p ps ih =>
      by_cases hp : p.1 = k
      · simp [lookup?, hp] at h
      · simp [lookup?, hp] at h
        simp [setKey, hp, ih h]

theorem sumBy_nil (p : Transaction → Bool) : sumBy p [] = 0 := rfl

theorem sumBy_cons (p : Transaction → Bool) (t : Transaction)
    (ts : List Transaction) :
    sumBy p (t :: ts) = (if p t then t.amount else 0) + sumBy p ts := by
  by_cases h : p t <;> simp [sumBy, h]

theorem countBy_cons (p : Transaction → Bool) (t : Transaction)
    (ts : List Transaction) :
    countBy p (t :: ts) = (if p t then 1 else 0) + countBy p ts := by
  by_cases h : p t <;> simp [countBy, h, Nat.add_comm]

/-! ### Projections of the loop body -/

theorem processTransaction_totalIncome (st : BuildState) (t : Transaction) :
    (processTransaction st t).totalIncome =
      if t.type = TransactionTypeIncome then
        setKey st.totalIncome t.currency (mget st.totalIncome t.currency + t.amount)
      else st.totalIncome := by
  unfold processTransaction
  split <;> rfl

theorem processTransaction_totalExpense (st : BuildState) (t : Transaction) :
    (processTransaction st t).totalExpense =
      if t.type = TransactionTypeIncome then st.totalExpense
      else
        setKey st.totalExpense t.currency (mget st.totalExpense t.currency + t.amount) := by
  unfold processTransaction
  split <;> rfl

theorem processTransaction_incomeCount (st : BuildState) (t : Transaction) :
    (processTransaction st t).incomeCount =
      if t.type = TransactionTypeIncome then st.incomeCount + 1
      else st.incomeCount := by
  unfold processTransaction
  split <;> rfl

theorem processTransaction_expenseCount (st : BuildState) (t : Transaction) :
    (processTransaction st t).expenseCount =
      if t.type = TransactionTypeIncome then st.expenseCount
      else st.expenseCount + 1 := by
  unfold processTransaction
  split <;> rfl

theorem processTransaction_categoryBreakdown (st : BuildState) (t : Transaction) :
    (processTransaction st t).categoryBreakdown =
      categoryUpdate st.categoryBreakdown t := by
  unfold processTransaction
  split <;> rfl

/-! ### Single-pass invariants: currency totals and counts -/

theorem foldl_totalIncome_mget (ts : List Transaction) (st : BuildState)
    (c : String) :
    mget (ts.foldl processTransaction st).totalIncome c
      = mget st.totalIncome c + sumBy (isIncomeIn c) ts := by
  induction ts generalizing st with
  | nil => simp [sumBy]
  | cons t ts ih =>
      rw [List.foldl_cons, ih, sumBy_cons]
      by_cases hty : t.type = TransactionTypeIncome
      · by_cases hc : t.currency = c
        · simp [processTransaction_totalIncome, hty, hc, mget_setKey, isIncomeIn]
          ring
        · simp [processTransaction_totalIncome, hty, mget_setKey, isIncomeIn,
            hc, Ne.symm hc]
      · simp [processTransaction_totalIncome, hty, isIncomeIn]

theorem foldl_totalExpense_mget (ts : List Transaction) (st : BuildState)
    (c : String) :
    mget (ts.foldl processTransaction st).totalExpense c
      = mget st.totalExpense c + sumBy (isExpenseIn c) ts := by
  induction ts generalizing st with
  | nil => simp [sumBy]
  | cons t ts ih =>
      rw [List.foldl_cons, ih, sumBy_cons]
      by_cases hty : t.type = TransactionTypeIncome
      · simp [processTransaction_totalExpense, hty, isExpenseIn]
      · by_cases hc : t.currency = c
        · simp [processTransaction_totalExpense, hty, hc, mget_setKey, isExpenseIn]
          ring
        · simp [processTransaction_totalExpense, hty, mget_setKey, isExpenseIn,
            hc, Ne.symm hc]

theorem foldl_totalIncome_isSome (ts : List Transaction) (st : BuildState)
    (c : String) :
    (lookup? (ts.foldl processTransaction st).totalIncome c).isSome
      ↔ (lookup? st.totalIncome c).isSome
          ∨ ∃ t ∈ ts, t.type = TransactionTypeIncome ∧ t.currency = c := by
  induction ts generalizing st with
  | nil => simp
  | cons t ts ih =>
      rw [List.foldl_cons, ih]
      by_cases hty : t.type = TransactionTypeIncome
      · by_cases hc : t.currency = c
        · simp [processTransaction_totalIncome, hty, hc, lookup_isSome_setKey]
        · simp [processTransaction_totalIncome, hty, hc, Ne.symm hc,
            lookup_isSome_setKey]
      · simp [processTransaction_totalIncome, hty]

theorem foldl_totalExpense_isSome (ts : List Transaction) (st : BuildState)
    (c : String) :
    (lookup? (ts.foldl processTransaction st).totalExpense c).isSome
      ↔ (lookup? st.totalExpense c).isSome
          ∨ ∃ t ∈ ts, t.type ≠ TransactionTypeIncome ∧ t.currency = c := by
  induction ts generalizing st with
  | nil => simp
  | cons t ts ih =>
      rw [List.foldl_cons, ih]
      by_cases hty : t.type = TransactionTypeIncome
      · simp [processTransaction_totalExpense, hty]
      · by_cases hc : t.currency = c
        · simp [processTransaction_totalExpense, hty, hc, lookup_isSome_setKey]
        · simp [processTransaction_totalExpense, hty, hc, Ne.symm hc,
            lookup_isSome_setKey]

theorem foldl_incomeCount (ts : List Transaction) (st : BuildState) :
    (ts.foldl processTransaction st).incomeCount
      = st.incomeCount + countBy (fun t => decide (t.type = TransactionTypeIncome)) ts := by
  induction ts generalizing st with
  | nil => simp [countBy]
  | cons t ts ih =>
      rw [List.foldl_cons, ih, countBy_cons]
      by_cases hty : t.type = TransactionTypeIncome <;>
        · simp [processTransaction_incomeCount, hty]
          try omega

theorem foldl_expenseCount (ts : List Transaction) (st : BuildState) :
    (ts.foldl processTransaction st).expenseCount
      = st.expenseCount + countBy (fun t => decide (t.type ≠ TransactionTypeIncome)) ts := by
  induction ts generalizing st with
  | nil => simp [countBy]
  | cons t ts ih =>
      rw [List.foldl_cons, ih, countBy_cons]
      by_cases hty : t.type = TransactionTypeIncome <;>
        · simp [processTransaction_expenseCount, hty]
          try omega

/-! ### Category-breakdown invariants -/

theorem mget_totalsAdd (tot : CurrencyMap) (cur : String) (amt : ℚ)
    (c : String) :
    mget (totalsAdd tot cur amt) c = mget tot c + if c = cur then amt else 0 := by
  unfold totalsAdd
  by_cases hz : mget tot cur = 0
  · by_cases hc : c = cur <;> simp [hz, hc, mget_setKey]
  · by_cases hc : c = cur <;> simp [hz, hc, mget_setKey]

theorem catSum_append (a b : CategoryMap) (c : String) :
    catSum (a ++ b) c = catSum a c + catSum b c := by
  simp [catSum]

theorem catSum_setKey_of_lookup_some (cb : CategoryMap) (k : String)
    (ct0 ct : CategoryTotal) (c : String) (h : lookup? cb k = some ct0) :
    catSum (setKey cb k ct) c
      = catSum cb c + (mget ct.totals c - mget ct0.totals c) := by
  induction cb with
  | nil => simp [lookup?] at h
  | cons p ps ih =>
      by_cases hp : p.1 = k
      · simp [lookup?, hp] at h
        subst h
        simp [setKey, hp, catSum]
        ring
      · simp [lookup?, hp] at h
        simp [setKey, hp, catSum] at ih ⊢
        rw [ih h]
        ring

theorem catCount_categoryUpdate (cb : CategoryMap) (t : Transaction)
    (k : String) :
    catCount (categoryUpdate cb t) k
      = catCount cb k + if k = t.category then 1 else 0 := by
  unfold categoryUpdate
  cases h : lookup? cb t.category with
  | some category =>
      by_cases hk : k = t.category
      · subst hk; simp [catCount, lookup_setKey, h]
      · simp [catCount, lookup_setKey, hk]
  | none =>
      by_cases hk : k = t.category
      · subst hk; simp [catCount, lookup_setKey, h]
      · simp [catCount, lookup_setKey, hk]

theorem catTotal_categoryUpdate (cb : CategoryMap) (t : Transaction)
    (k c : String) :
    catTotal (categoryUpdate cb t) k c
      = catTotal cb k c
          + if k = t.category ∧ c = t.currency then t.amount else 0 := by
  unfold categoryUpdate
  cases h : lookup? cb t.category with
  | some category =>
      by_cases hk : k = t.category
      · subst hk
        by_cases hc : c = t.currency <;>
          simp [catTotal, lookup_setKey, h, mget_totalsAdd, hc]
      · simp [catTotal, lookup_setKey, hk]
  | none =>
      by_cases hk : k = t.category
      · subst hk
        by_cases hc : c = t.currency <;>
          simp [catTotal, lookup_setKey, h, mget, lookup?, hc, Ne.symm, eq_comm]
      · simp [catTotal, lookup_setKey, hk]

theorem catLookup_isSome_categoryUpdate (cb : CategoryMap) (t : Transaction)
    (k : String) :
    (lookup? (categoryUpdate cb t) k).isSome
      = (k = t.category ∨ (lookup? cb k).isSome) := by
  unfold categoryUpdate
  cases h : lookup? cb t.category with
  | some category => simp [lookup_isSome_setKey]
  | none => simp [lookup_isSome_setKey]

theorem catSum_categoryUpdate (cb : CategoryMap) (t : Transaction)
    (c : String) :
    catSum (categoryUpdate cb t) c
      = catSum cb c + if c = t.currency then t.amount else 0 := by
  unfold categoryUpdate
  cases h : lookup? cb t.category with
  | some category =>
      rw [catSum_setKey_of_lookup_some cb t.category category _ c h]
      simp [mget_totalsAdd]
  | none =>
      rw [setKey_of_lookup_none cb t.category _ h, catSum_append]
      by_cases hc : c = t.currency <;>
        simp [catSum, mget, lookup?, hc, eq_comm]

theorem foldl_catCount (ts : List Transaction) (st : BuildState) (k : String) :
    catCount (ts.foldl processTransaction st).categoryBreakdown k
      = catCount st.categoryBreakdown k
          + countBy (fun t => decide (t.category = k)) ts := by
  induction ts generalizing st with
  | nil => simp [countBy]
  | cons t ts ih =>
      rw [List.foldl_cons, ih, countBy_cons]
      rw [processTransaction_categoryBreakdown, catCount_categoryUpdate]
      by_cases hk : t.category = k
      · simp [hk]
        omega
      · simp [hk, Ne.symm hk]

theorem foldl_catTotal (ts : List Transaction) (st : BuildState) (k c : String) :
    catTotal (ts.foldl processTransaction st).categoryBreakdown k c
      = catTotal st.categoryBreakdown k c
          + sumBy (fun t => decide (t.category = k ∧ t.currency = c)) ts := by
  induction ts generalizing st with
  | nil => simp [sumBy]
  | cons t ts ih =>
      rw [List.foldl_cons, ih, sumBy_cons]
      rw [processTransaction_categoryBreakdown, catTotal_categoryUpdate]
      by_cases hk : t.category = k
      · by_cases hc : t.currency = c
        · simp [hk, hc]
          ring
        · simp [hk, hc, Ne.symm hc]
      · simp [hk, Ne.symm hk]

theorem foldl_cat_isSome (ts : List Transaction) (st : BuildState) (k : String) :
    (lookup? (ts.foldl processTransaction st).categoryBreakdown k).isSome
      ↔ (lookup? st.categoryBreakdown k).isSome ∨ ∃ t ∈ ts, t.category = k := by
  induction ts generalizing st with
  | nil => simp
  | cons t ts ih =>
      rw [List.foldl_cons, ih]
      rw [processTransaction_categoryBreakdown, catLookup_isSome_categoryUpdate]
      by_cases hk : t.category = k
      · simp [hk]
      · simp [hk, Ne.symm hk]

theorem foldl_catSum (ts : List Transaction) (st : BuildState) (c : String) :
    catSum (ts.foldl processTransaction st).categoryBreakdown c
      = catSum st.categoryBreakdown c
          + sumBy (fun t => decide (t.currency = c)) ts := by
  induction ts generalizing st with
  | nil => simp [sumBy]
  | cons t ts ih =>
      rw [List.foldl_cons, ih, sumBy_cons]
      rw [processTransaction_categoryBreakdown, catSum_categoryUpdate]
      by_cases hc : t.currency = c
      · simp [hc]
        ring
      · simp [hc, Ne.symm hc]

/-! ### Balance lemmas -/

theorem lookup_foldl_setKeyTrue (l : List String) (init : List (String × Bool))
    (c : String) :
    (lookup? (l.foldl (fun acc k => setKey acc k true) init) c).isSome
      ↔ c ∈ l ∨ (lookup? init c).isSome := by
  induction l generalizing init with
  | nil => simp
  | cons a l ih =>
      rw [List.foldl_cons, ih]
      by_cases hc : c = a
      · simp [hc, lookup_isSome_setKey]
      · simp [hc, lookup_isSome_setKey]

theorem getAllCurrencies_isSome (ti te : CurrencyMap) (c : String) :
    (lookup? (getAllCurrencies ti te) c).isSome
      ↔ (lookup? ti c).isSome ∨ (lookup? te c).isSome := by
  unfold getAllCurrencies
  rw [lookup_foldl_setKeyTrue, lookup_foldl_setKeyTrue]
  rw [lookup_isSome_iff_mem_keys ti c, lookup_isSome_iff_mem_keys te c]
  simp [lookup?]
  tauto

theorem lookup_foldl_setKeyFun (cs : List (String × Bool)) (g : String → ℚ)
    (init : CurrencyMap) (c : String) :
    lookup? (cs.foldl (fun b p => setKey b p.1 (g p.1)) init) c
      = if c ∈ cs.map Prod.fst then some (g c) else lookup? init c := by
  induction cs generalizing init with
  | nil => simp
  | cons p cs ih =>
      rw [List.foldl_cons, ih]
      by_cases hmem : c ∈ cs.map Prod.fst
      · simp [hmem]
      · by_cases hc : c = p.1
        · simp [hmem, hc, lookup_setKey]
        · simp [hmem, hc, lookup_setKey]

theorem lookup_balanceOf (ti te : CurrencyMap) (c : String) :
    lookup? (balanceOf ti te) c
      = if (lookup? (getAllCurrencies ti te) c).isSome
        then some (mget ti c - mget te c) else none := by
  unfold balanceOf
  rw [lookup_foldl_setKeyFun (getAllCurrencies ti te)
    (fun x => mget ti x - mget te x) [] c]
  by_cases hmem : c ∈ (getAllCurrencies ti te).map Prod.fst
  · simp [hmem, (lookup_isSome_iff_mem_keys _ _).2 hmem]
  · have h2 : ¬ (lookup? (getAllCurrencies ti te) c).isSome = true :=
      fun h => hmem ((lookup_isSome_iff_mem_keys _ _).1 h)
    simp [hmem, h2, lookup?]

/-! ### Report accessors -/

theorem report_totalIncome_def (year month : Int) (ts : List Transaction) :
    (buildMonthlyReport year month ts).totalIncome
      = (ts.foldl processTransaction initialBuildState).totalIncome := rfl

theorem report_totalExpense_def (year month : Int) (ts : List Transaction) :
    (buildMonthlyReport year month ts).totalExpense
      = (ts.foldl processTransaction initialBuildState).totalExpense := rfl

theorem report_balance_def (year month : Int) (ts : List Transaction) :
    (buildMonthlyReport year month ts).balance
      = balanceOf (ts.foldl processTransaction initialBuildState).totalIncome
          (ts.foldl processTransaction initialBuildState).totalExpense := rfl

theorem report_categoryBreakdown_def (year month : Int) (ts : List Transaction) :
    (buildMonthlyReport year month ts).summary.categoryBreakdown
      = (ts.foldl processTransaction initialBuildState).categoryBreakdown := rfl

theorem report_counts_def (year month : Int) (ts : List Transaction) :
    (buildMonthlyReport year month ts).summary.transactionCount = ts.length
      ∧ (buildMonthlyReport year month ts).summary.incomeCount
          = (ts.foldl processTransaction initialBuildState).incomeCount
      ∧ (buildMonthlyReport year month ts).summary.expenseCount
          = (ts.foldl processTransaction initialBuildState).expenseCount :=
  ⟨rfl, rfl, rfl⟩

theorem countBy_bool_not (p : Transaction → Bool) (ts : List Transaction) :
    countBy p ts + countBy (fun t => !(p t)) ts = ts.length := by
  induction ts with
  | nil => rfl
  | cons t ts ih =>
      rw [countBy_cons, countBy_cons]
      cases h : p t <;> simp [h] <;> omega

theorem countBy_income_add_not (ts : List Transaction) :
    countBy (fun t => decide (t.type = TransactionTypeIncome)) ts
      + countBy (fun t => decide (t.type ≠ TransactionTypeIncome)) ts
      = ts.length := by
  have h2 : countBy (fun t => decide (t.type ≠ TransactionTypeIncome)) ts
      = countBy (fun t => !(decide (t.type = TransactionTypeIncome))) ts := by
    simp [countBy]
  rw [h2, countBy_bool_not]

theorem sumBy_currency_split (ts : List Transaction) (c : String) :
    sumBy (fun t => decide (t.currency = c)) ts
      = sumBy (isIncomeIn c) ts + sumBy (isExpenseIn c) ts := by
  induction ts with
  | nil => simp [sumBy]
  | cons t ts ih =>
      rw [sumBy_cons, sumBy_cons, sumBy_cons, ih]
      by_cases hty : t.type = TransactionTypeIncome <;>
        by_cases hc : t.currency = c <;>
          · simp [isIncomeIn, isExpenseIn, hty, hc]
            try ring

/-! ### Claim theorems -/

theorem lookup_nil {α : Type} (c : String) : lookup? ([] : List (String × α)) c = none := rfl

theorem mget_nil (c : String) : mget [] c = 0 := rfl

/-- C1: for every transaction list whose kinds are all `income` or `expense`
and every currency `c`, `totalIncome[c]` equals the sum of `amount` over
exactly the income transactions with currency `c`, with the key `c` present
iff at least one such transaction exists; analogously `totalExpense[c]` for
the expense transactions with currency `c`. -/
theorem totalIncome_totalExpense_sums (year month : Int)
    (ts : List Transaction) (c : String)
    (hwf : ∀ t ∈ ts, t.type = TransactionTypeIncome
      ∨ t.type = TransactionTypeExpense) :
    mget (buildMonthlyReport year month ts).totalIncome c
        = sumBy (isIncomeIn c) ts
      ∧ ((lookup? (buildMonthlyReport year month ts).totalIncome c).isSome
          ↔ ∃ t ∈ ts, t.type = TransactionTypeIncome ∧ t.currency = c)
      ∧ mget (buildMonthlyReport year month ts).totalExpense c
          = sumBy (fun t => decide (t.type = TransactionTypeExpense ∧ t.currency = c)) ts
      ∧ ((lookup? (buildMonthlyReport year month ts).totalExpense c).isSome
          ↔ ∃ t ∈ ts, t.type = TransactionTypeExpense ∧ t.currency = c) := by
  have hexp : ts.filter (isExpenseIn c)
      = ts.filter (fun t => decide (t.type = TransactionTypeExpense ∧ t.currency = c)) := by
    apply List.filter_congr
    intro t ht
    rcases hwf t ht with h | h <;>
      simp [isExpenseIn, h, TransactionTypeIncome, TransactionTypeExpense]
  have hiff : (∃ t ∈ ts, t.type ≠ TransactionTypeIncome ∧ t.currency = c)
      ↔ ∃ t ∈ ts, t.type = TransactionTypeExpense ∧ t.currency = c := by
    constructor
    · rintro ⟨t, ht, h1, h2⟩
      rcases hwf t ht with h | h
      · exact absurd h h1
      · exact ⟨t, ht, h, h2⟩
    · rintro ⟨t, ht, h1, h2⟩
      refine ⟨t, ht, ?_, h2⟩
      rw [h1]
      simp [TransactionTypeIncome, TransactionTypeExpense]
  refine ⟨?_, ?_, ?_, ?_⟩
  · rw [report_totalIncome_def, foldl_totalIncome_mget]
    simp [initialBuildState, mget_nil]
  · rw [report_totalIncome_def, foldl_totalIncome_isSome]
    simp [initialBuildState, lookup_nil]
  · rw [report_totalExpense_def, foldl_totalExpense_mget]
    simp [initialBuildState, mget_nil, sumBy, hexp]
  · rw [report_totalExpense_def, foldl_totalExpense_isSome]
    simp [initialBuildState, lookup_nil]
    exact hiff

theorem totalIncome_totalExpense_sums_witness :
    (∀ t ∈ sampleTransactions, t.type = TransactionTypeIncome
        ∨ t.type = TransactionTypeExpense)
      ∧ (mget (buildMonthlyReport 2024 6 sampleTransactions).totalIncome "ARS"
            = sumBy (isIncomeIn "ARS") sampleTransactions
          ∧ ((lookup? (buildMonthlyReport 2024 6 sampleTransactions).totalIncome "ARS").isSome
              ↔ ∃ t ∈ sampleTransactions,
                  t.type = TransactionTypeIncome ∧ t.currency = "ARS")
          ∧ mget (buildMonthlyReport 2024 6 sampleTransactions).totalExpense "ARS"
              = sumBy (fun t => decide (t.type = TransactionTypeExpense ∧ t.currency = "ARS"))
                  sampleTransactions
          ∧ ((lookup? (buildMonthlyReport 2024 6 sampleTransactions).totalExpense "ARS").isSome
              ↔ ∃ t ∈ sampleTransactions,
                  t.type = TransactionTypeExpense ∧ t.currency = "ARS")) :=
  ⟨by decide,
   totalIncome_totalExpense_sums 2024 6 sampleTransactions "ARS" (by decide)⟩

/-- C2: the balance map has an entry for exactly the currencies present in
`totalIncome` or `totalExpense`, and for every currency `c` its value is
`totalIncome[c] - totalExpense[c]`, a missing entry reading as zero. -/
theorem balance_law (year month : Int) (ts : List Transaction) (c : String) :
    ((lookup? (buildMonthlyReport year month ts).balance c).isSome
        ↔ (lookup? (buildMonthlyReport year month ts).totalIncome c).isSome
          ∨ (lookup? (buildMonthlyReport year month ts).totalExpense c).isSome)
      ∧ mget (buildMonthlyReport year month ts).balance c
          = mget (buildMonthlyReport year month ts).totalIncome c
            - mget (buildMonthlyReport year month ts).totalExpense c := by
  rw [report_balance_def, report_totalIncome_def, report_totalExpense_def]
  constructor
  · rw [lookup_balanceOf]
    by_cases h : (lookup? (getAllCurrencies
        (ts.foldl processTransaction initialBuildState).totalIncome
        (ts.foldl processTransaction initialBuildState).totalExpense) c).isSome
    · simp [h]
      exact (getAllCurrencies_isSome _ _ c).1 h
    · simp [h]
      have hboth := fun hc => h ((getAllCurrencies_isSome _ _ c).2 hc)
      exact ⟨Option.not_isSome_iff_eq_none.1 fun hx => hboth (Or.inl hx),
        Option.not_isSome_iff_eq_none.1 fun hx => hboth (Or.inr hx)⟩
  · unfold mget
    rw [lookup_balanceOf]
    by_cases h : (lookup? (getAllCurrencies
        (ts.foldl processTransaction initialBuildState).totalIncome
        (ts.foldl processTransaction initialBuildState).totalExpense) c).isSome
    · simp [h, mget]
    · simp [h]
      have hboth := fun hc => h ((getAllCurrencies_isSome _ _ c).2 hc)
      have h1 := Option.not_isSome_iff_eq_none.1
        (fun hx => hboth (Or.inl hx) :
          ¬ (lookup? (ts.foldl processTransaction initialBuildState).totalIncome c).isSome = true)
      have h2 := Option.not_isSome_iff_eq_none.1
        (fun hx => hboth (Or.inr hx) :
          ¬ (lookup? (ts.foldl processTransaction initialBuildState).totalExpense c).isSome = true)
      simp [h1, h2]

/-- C3: for every category `k`, `categoryBreakdown[k].count` is the number of
transactions with category `k` and `categoryBreakdown[k].totals[c]` is the
sum of `amount` over transactions with category `k` and currency `c`; an
entry exists iff some transaction has that category. -/
theorem categoryBreakdown_totals (year month : Int) (ts : List Transaction)
    (k c : String) :
    catCount (buildMonthlyReport year month ts).summary.categoryBreakdown k
        = countBy (fun t => decide (t.category = k)) ts
      ∧ catTotal (buildMonthlyReport year month ts).summary.categoryBreakdown k c
          = sumBy (fun t => decide (t.category = k ∧ t.currency = c)) ts
      ∧ ((lookup? (buildMonthlyReport year month ts).summary.categoryBreakdown k).isSome
          ↔ ∃ t ∈ ts, t.category = k) := by
  refine ⟨?_, ?_, ?_⟩
  · rw [report_categoryBreakdown_def, foldl_catCount]
    simp [initialBuildState, catCount, lookup?]
  · rw [report_categoryBreakdown_def, foldl_catTotal]
    simp [initialBuildState, catTotal, lookup?, mget]
  · rw [report_categoryBreakdown_def, foldl_cat_isSome]
    simp [initialBuildState, lookup?]

/-- C4: `summary.transactionCount` equals the input length, which equals
`summary.incomeCount + summary.expenseCount`; `incomeCount` counts the
income transactions and `expenseCount` the rest. -/
theorem summary_count_consistency (year month : Int) (ts : List Transaction) :
    (buildMonthlyReport year month ts).summary.transactionCount = ts.length
      ∧ ts.length = (buildMonthlyReport year month ts).summary.incomeCount
          + (buildMonthlyReport year month ts).summary.expenseCount
      ∧ (buildMonthlyReport year month ts).summary.incomeCount
          = countBy (fun t => decide (t.type = TransactionTypeIncome)) ts
      ∧ (buildMonthlyReport year month ts).summary.expenseCount
          = countBy (fun t => decide (t.type ≠ TransactionTypeIncome)) ts := by
  obtain ⟨hc, hi, he⟩ := report_counts_def year month ts
  have hic : (buildMonthlyReport year month ts).summary.incomeCount
      = countBy (fun t => decide (t.type = TransactionTypeIncome)) ts := by
    rw [hi, foldl_incomeCount]
    simp [initialBuildState]
  have hec : (buildMonthlyReport year month ts).summary.expenseCount
      = countBy (fun t => decide (t.type ≠ TransactionTypeIncome)) ts := by
    rw [he, foldl_expenseCount]
    simp [initialBuildState]
  refine ⟨hc, ?_, hic, hec⟩
  rw [hic, hec, countBy_income_add_not]

/-- C9: the builder is total and classifies by a two-way branch on `kind`:
every transaction whose kind is not exactly `income` — whatever the string —
contributes its amount to `totalExpense[currency]` and to `expenseCount`,
and every input transaction is counted, none skipped. -/
theorem else_branch_is_expense (year month : Int) (ts : List Transaction)
    (c : String) :
    mget (buildMonthlyReport year month ts).totalExpense c
        = sumBy (isExpenseIn c) ts
      ∧ (buildMonthlyReport year month ts).summary.expenseCount
          = countBy (fun t => decide (t.type ≠ TransactionTypeIncome)) ts
      ∧ (buildMonthlyReport year month ts).summary.transactionCount
          = (buildMonthlyReport year month ts).summary.incomeCount
            + (buildMonthlyReport year month ts).summary.expenseCount
      ∧ (buildMonthlyReport year month ts).summary.transactionCount = ts.length := by
  obtain ⟨hc, hi, he⟩ := report_counts_def year month ts
  refine ⟨?_, ?_, ?_, hc⟩
  · rw [report_totalExpense_def, foldl_totalExpense_mget]
    simp [initialBuildState, mget_nil]
  · rw [he, foldl_expenseCount]
    simp [initialBuildState]
  · rw [hc, hi, he, foldl_incomeCount, foldl_expenseCount]
    simp [initialBuildState]
    rw [← countBy_bool_not (fun t => decide (t.type = TransactionTypeIncome)) ts]

/-- C10: for every currency `c`, the sum over all categories of
`categoryBreakdown[k].totals[c]` equals `totalIncome[c] + totalExpense[c]`,
in exact arithmetic. -/
theorem category_totals_cover_currency_totals (year month : Int)
    (ts : List Transaction) (c : String) :
    catSum (buildMonthlyReport year month ts).summary.categoryBreakdown c
      = mget (buildMonthlyReport year month ts).totalIncome c
        + mget (buildMonthlyReport year month ts).totalExpense c := by
  rw [report_categoryBreakdown_def, report_totalIncome_def,
    report_totalExpense_def, foldl_catSum, foldl_totalIncome_mget,
    foldl_totalExpense_mget]
  simp [initialBuildState, mget_nil, catSum]
  rw [sumBy_currency_split]

/-- C5: `GetMonthlyReport` rejects `year < 1900` and `year > currentYear+10`
with the invalid-year error and, for valid years, `month < 1` or `month > 12`
with the invalid-month error; in both error cases the result does not depend
on the transaction store (no store call is observable), and every in-range
pair is accepted, querying the store over the computed month range. -/
theorem getMonthlyReport_validation (currentYear year month : Int)
    (q q2 : Int → Int → List Transaction) :
    ((year < 1900 ∨ year > currentYear + 10) →
        GetMonthlyReport currentYear q year month = .error .invalidYear
          ∧ GetMonthlyReport currentYear q year month
              = GetMonthlyReport currentYear q2 year month)
      ∧ ((1900 ≤ year ∧ year ≤ currentYear + 10 ∧ (month < 1 ∨ month > 12)) →
          GetMonthlyReport currentYear q year month = .error .invalidMonth
            ∧ GetMonthlyReport currentYear q year month
                = GetMonthlyReport currentYear q2 year month)
      ∧ ((1900 ≤ year ∧ year ≤ currentYear + 10 ∧ 1 ≤ month ∧ month ≤ 12) →
          GetMonthlyReport currentYear q year month
            = .ok (buildMonthlyReport year month
                (q (computeMonthRange year month).1
                   (computeMonthRange year month).2))) := by
  refine ⟨?_, ?_, ?_⟩
  · intro h
    rw [GetMonthlyReport, GetMonthlyReport, if_pos h, if_pos h]
    exact ⟨rfl, rfl⟩
  · rintro ⟨h1, h2, h3⟩
    have hnot : ¬(year < 1900 ∨ year > currentYear + 10) := by omega
    rw [GetMonthlyReport, GetMonthlyReport, if_neg hnot, if_neg hnot,
      if_pos h3, if_pos h3]
    exact ⟨rfl, rfl⟩
  · rintro ⟨h1, h2, h3, h4⟩
    have hnot : ¬(year < 1900 ∨ year > currentYear + 10) := by omega
    have hnotm : ¬(month < 1 ∨ month > 12) := by omega
    rw [GetMonthlyReport, if_neg hnot, if_neg hnotm]

theorem getMonthlyReport_validation_witness :
    GetMonthlyReport 2026 (fun _ _ => sampleTransactions) 1899 6
        = .error .invalidYear
      ∧ GetMonthlyReport 2026 (fun _ _ => sampleTransactions) 2037 6
          = .error .invalidYear
      ∧ GetMonthlyReport 2026 (fun _ _ => sampleTransactions) 2024 0
          = .error .invalidMonth
      ∧ GetMonthlyReport 2026 (fun _ _ => sampleTransactions) 2024 13
          = .error .invalidMonth
      ∧ GetMonthlyReport 2026 (fun _ _ => sampleTransactions) 1899 6
          = GetMonthlyReport 2026 (fun _ _ => []) 1899 6
      ∧ GetMonthlyReport 2026 (fun _ _ => []) 1900 1
          = .ok (buildMonthlyReport 1900 1 [])
      ∧ GetMonthlyReport 2026 (fun _ _ => []) 2036 12
          = .ok (buildMonthlyReport 2036 12 []) :=
  ⟨((getMonthlyReport_validation 2026 1899 6 (fun _ _ => sampleTransactions)
      (fun _ _ => [])).1 (by omega)).1,
   ((getMonthlyReport_validation 2026 2037 6 (fun _ _ => sampleTransactions)
      (fun _ _ => [])).1 (by omega)).1,
   ((getMonthlyReport_validation 2026 2024 0 (fun _ _ => sampleTransactions)
      (fun _ _ => [])).2.1 (by omega)).1,
   ((getMonthlyReport_validation 2026 2024 13 (fun _ _ => sampleTransactions)
      (fun _ _ => [])).2.1 (by omega)).1,
   ((getMonthlyReport_validation 2026 1899 6 (fun _ _ => sampleTransactions)
      (fun _ _ => [])).1 (by omega)).2,
   (getMonthlyReport_validation 2026 1900 1 (fun _ _ => [])
      (fun _ _ => [])).2.2 (by omega),
   (getMonthlyReport_validation 2026 2036 12 (fun _ _ => [])
      (fun _ _ => [])).2.2 (by omega)⟩

/-- C6: for every valid month, the computed range starts at the first
instant of the month and ends exactly one second before the first instant
of the following month; concretely, `computeMonthRange 2024 2` is
`2024-02-01T00:00:00Z` (Unix second 1706745600) to `2024-02-29T23:59:59Z`
(Unix second 1709251199, the leap-year February end). -/
theorem computeMonthRange_correct (year month : Int)
    (h1 : 1 ≤ month) (h2 : month ≤ 12) :
    ((computeMonthRange year month).1 = goTimeDateUTC year month 1 0 0 0
      ∧ (computeMonthRange year month).2
          = (if month = 12 then goTimeDateUTC (year + 1) 1 1 0 0 0
             else goTimeDateUTC year (month + 1) 1 0 0 0) - nsPerSecond)
      ∧ computeMonthRange 2024 2
          = (1706745600 * nsPerSecond, 1709251199 * nsPerSecond)
      ∧ goTimeDateUTC 2024 2 1 0 0 0 = 1706745600 * nsPerSecond
      ∧ goTimeDateUTC 2024 2 29 23 59 59 = 1709251199 * nsPerSecond := by
  refine ⟨⟨rfl, ?_⟩, by decide, by decide, by decide⟩
  interval_cases month <;>
    (simp [computeMonthRange, goTimeDateUTC]; try norm_num)

theorem computeMonthRange_correct_witness :
    (1 : Int) ≤ 7 ∧ (7 : Int) ≤ 12
      ∧ (((computeMonthRange 2023 7).1 = goTimeDateUTC 2023 7 1 0 0 0
          ∧ (computeMonthRange 2023 7).2
              = (if (7 : Int) = 12 then goTimeDateUTC (2023 + 1) 1 1 0 0 0
                 else goTimeDateUTC 2023 (7 + 1) 1 0 0 0) - nsPerSecond)
        ∧ computeMonthRange 2024 2
            = (1706745600 * nsPerSecond, 1709251199 * nsPerSecond)
        ∧ goTimeDateUTC 2024 2 1 0 0 0 = 1706745600 * nsPerSecond
        ∧ goTimeDateUTC 2024 2 29 23 59 59 = 1709251199 * nsPerSecond) :=
  ⟨by decide, by decide, computeMonthRange_correct 2023 7 (by decide) (by decide)⟩

/-- C7 counterexample: the store's range query is not the closed interval
`[start, end]` — a transaction dated half a second before the start of
March 2024 is returned by the March query even though its date is strictly
before `start`. -/
theorem getByDateRange_closed_interval_cex :
    (GetByDateRange
        [{ id := 1, type := "expense", amount := 1, currency := "ARS",
           description := "", category := "food",
           date := 1709251200 * nsPerSecond - 500000000 }]
        (1709251200 * nsPerSecond) (1711929599 * nsPerSecond)).length = 1
      ∧ 1709251200 * nsPerSecond - 500000000 < 1709251200 * nsPerSecond := by
  constructor
  · simp [GetByDateRange, nsPerSecond]
  · decide

/-- C7 (amended): the store's range query returns a transaction iff it is
stored and its attributed date lies strictly inside the open interval
`(start - 1s, end + 1s)`. -/
theorem getByDateRange_membership (stored : List Transaction)
    (startDate endDate : Int) (t : Transaction) :
    t ∈ GetByDateRange stored startDate endDate
      ↔ t ∈ stored ∧ startDate - nsPerSecond < t.date
          ∧ t.date < endDate + nsPerSecond := by
  simp [GetByDateRange, List.mem_filter]

/-- C8: the `transactions` field of the built report is exactly the input
sequence, unchanged. -/
theorem report_transactions_preserved (year month : Int)
    (ts : List Transaction) :
    (buildMonthlyReport year month ts).transactions = ts := rfl
